import Mathlib

/-!
Shallow embedding of the `watered` plant-tracker's core logic.

Conventions of the embedding:
* Go `time.Time` values are modelled as exact rationals (`ℚ`) measured in
  hours since an arbitrary epoch; `time.Since(t)` at instant `now` becomes
  `now - t`, giving the elapsed duration in hours.  Go's float64 arithmetic on
  these quantities is modelled exactly (the only constant involved, `0.5`, is
  exactly representable, and the comparisons in the source are against exact
  values).
* Go's `int(x)` conversion of a float truncates toward zero; on exact
  rationals this is `ratTruncInt` below (`Int.tdiv` of numerator by
  denominator).
* `*time.Time` (nullable) becomes `Option ℚ`; Go functions returning
  `(T, error)` become `Except String T`.
* The in-memory `MemoryStorage` (internal/storage) never fails, so the
  service-layer operations over it are total functions on an explicit
  storage state.  Where a storage read *can* fail behind the `Storage`
  interface (the auth service), the read's outcome is passed in explicitly
  as an `Except String (Option AdminConfig)` value.
-/

namespace Watered

/-- Embedding of `models.PlantHealthStatus` (internal/models/plant.go). -/
inductive PlantHealthStatus where
  | healthy
  | needsWater
  | critical
  | unknown
deriving DecidableEq, Repr

/-- Embedding of `models.PlantState` (internal/models/plant.go).  Times are rational
hours; `lastWatered` is the nullable `*time.Time`. -/
structure PlantState where
  id : Int
  name : String
  lastWatered : Option ℚ
  timeoutHours : Int
  wateredBy : String
  createdAt : ℚ
  updatedAt : ℚ
deriving DecidableEq, Repr

/-- Go's `int(x)` conversion of a float: truncation toward zero, modelled on
exact rationals. -/
def ratTruncInt (q : ℚ) : Int :=
  Int.tdiv q.num q.den

/-- Embedding of `PlantState.GetHealthStatus` (internal/models/plant.go): three-way
bucket on hours since watering versus `TimeoutHours`. -/
def PlantState.GetHealthStatus (p : PlantState) (now : ℚ) : PlantHealthStatus :=
  match p.lastWatered with
  | none => .critical
  | some lw =>
    if now - lw < (p.timeoutHours : ℚ) * (1 / 2) then .healthy
    else if now - lw < (p.timeoutHours : ℚ) then .needsWater
    else .critical

/-- Embedding of `PlantState.IsOverdue` (internal/models/plant.go): never watered, or
`time.Since(lastWatered).Hours() > float64(TimeoutHours)` - note the strict
comparison in the source. -/
def PlantState.IsOverdue (p : PlantState) (now : ℚ) : Bool :=
  match p.lastWatered with
  | none => true
  | some lw => decide ((p.timeoutHours : ℚ) < now - lw)

/-- Embedding of `PlantState.GetTimeSinceWatering` (internal/models/plant.go). -/
def PlantState.GetTimeSinceWatering (p : PlantState) (now : ℚ) : Option ℚ :=
  match p.lastWatered with
  | none => none
  | some lw => some (now - lw)

/-- Embedding of `PlantState.GetHoursSinceWatering` (internal/models/plant.go). -/
def PlantState.GetHoursSinceWatering (p : PlantState) (now : ℚ) : Option ℚ :=
  match p.lastWatered with
  | none => none
  | some lw => some (now - lw)

/-- Embedding of `PlantState.GetTimeUntilDue` (internal/models/plant.go). -/
def PlantState.GetTimeUntilDue (p : PlantState) (now : ℚ) : Option ℚ :=
  match p.lastWatered with
  | none => none
  | some lw => some (lw + (p.timeoutHours : ℚ) - now)

/-- Embedding of `PlantState.GetFormattedTimeSinceWatering` (internal/models/plant.go):
human-readable elapsed time.  Minutes, hours and days are Go `int`
truncations of the float duration. -/
def PlantState.GetFormattedTimeSinceWatering (p : PlantState) (now : ℚ) : String :=
  match p.lastWatered with
  | none => "Never watered"
  | some lw =>
    if now - lw < 1 then
      if ratTruncInt ((now - lw) * 60) = 1 then "1 minute ago"
      else s!"{ratTruncInt ((now - lw) * 60)} minutes ago"
    else
      if ratTruncInt (now - lw) = 1 then "1 hour ago"
      else if ratTruncInt (now - lw) < 24 then s!"{ratTruncInt (now - lw)} hours ago"
      else
        if ratTruncInt ((now - lw) / 24) = 1 then "1 day ago"
        else s!"{ratTruncInt ((now - lw) / 24)} days ago"

/-- Embedding of `PlantState.Validate` (internal/models/plant.go). -/
def PlantState.Validate (p : PlantState) : Except String Unit :=
  if p.name = "" then .error "plant name cannot be empty"
  else if p.timeoutHours ≤ 0 then .error "timeout hours must be positive"
  else if p.timeoutHours > 8760 then .error "timeout hours cannot exceed 8760 (1 year)"
  else .ok ()

/-- Embedding of `models.AdminConfig` (internal/models/plant.go). -/
structure AdminConfig where
  timeoutHours : Int
  allowedEmails : List String
  adminEmails : List String
  lastModified : ℚ
  modifiedBy : String
deriving DecidableEq, Repr

/-- Embedding of `storage.MemoryStorage` (internal/storage/memory.go): the in-memory
store holds one nullable plant record and one nullable admin config (the
user map plays no role in the claims below). -/
structure MemoryStorage where
  plant : Option PlantState
  config : Option AdminConfig
deriving DecidableEq, Repr

/-! ### Claim C1 : health-status buckets -/

/-- C1: with `last_watered` present, `GetHealthStatus` returns `healthy`
iff elapsed `h < 0.5*T`, `needs_water` iff `0.5*T ≤ h < T`, and `critical`
iff `h ≥ T` (for a valid, positive timeout `T`); with `last_watered`
absent it returns `critical`. -/
theorem getHealthStatus_buckets (p : PlantState) (now lw : ℚ)
    (hT : 0 < p.timeoutHours) :
    (p.lastWatered = none → p.GetHealthStatus now = PlantHealthStatus.critical) ∧
    (p.lastWatered = some lw →
      ((p.GetHealthStatus now = PlantHealthStatus.healthy ↔
          now - lw < (p.timeoutHours : ℚ) * (1 / 2)) ∧
       (p.GetHealthStatus now = PlantHealthStatus.needsWater ↔
          ((p.timeoutHours : ℚ) * (1 / 2) ≤ now - lw ∧ now - lw < (p.timeoutHours : ℚ))) ∧
       (p.GetHealthStatus now = PlantHealthStatus.critical ↔
          (p.timeoutHours : ℚ) ≤ now - lw))) := by
  have hTq : (0 : ℚ) < (p.timeoutHours : ℚ) := by exact_mod_cast hT
  constructor
  · intro h
    simp [PlantState.GetHealthStatus, h]
  · intro h
    simp only [PlantState.GetHealthStatus, h]
    split_ifs with h1 h2
    · refine ⟨⟨fun _ => h1, fun _ => rfl⟩, ⟨fun hc => ?_, fun hc => ?_⟩,
        ⟨fun hc => ?_, fun hc => ?_⟩⟩
      · exact absurd hc (by decide)
      · exact absurd h1 (by linarith [hc.1])
      · exact absurd hc (by decide)
      · exact absurd h1 (by linarith)
    · refine ⟨⟨fun hc => ?_, fun hc => ?_⟩, ⟨fun _ => ⟨le_of_not_lt h1, h2⟩, fun _ => rfl⟩,
        ⟨fun hc => ?_, fun hc => ?_⟩⟩
      · exact absurd hc (by decide)
      · exact absurd hc (not_lt.mpr (le_of_not_lt h1))
      · exact absurd hc (by decide)
      · exact absurd h2 (not_lt.mpr hc)
    · refine ⟨⟨fun hc => ?_, fun hc => ?_⟩, ⟨fun hc => ?_, fun hc => ?_⟩,
        ⟨fun _ => le_of_not_lt h2, fun _ => rfl⟩⟩
      · exact absurd hc (by decide)
      · exact absurd hc (not_lt.mpr (le_of_not_lt h1))
      · exact absurd hc (by decide)
      · exact absurd hc.2 (not_lt.mpr (le_of_not_lt h2))

/-- C1 witness: a plant watered 3 hours ago with the default 24-hour
timeout is healthy, and a never-watered plant is critical. -/
theorem getHealthStatus_buckets_witness :
    (0 : Int) < 24 ∧
    PlantState.GetHealthStatus
      { id := 1, name := "Our Plant", lastWatered := some 0, timeoutHours := 24,
        wateredBy := "", createdAt := 0, updatedAt := 0 } 3 = PlantHealthStatus.healthy := by
  refine ⟨by decide, ?_⟩
  exact ((getHealthStatus_buckets
    { id := 1, name := "Our Plant", lastWatered := some 0, timeoutHours := 24,
      wateredBy := "", createdAt := 0, updatedAt := 0 } 3 0 (by decide)).2 rfl).1.mpr
    (by norm_num)

/-! ### Claim C2 : overdue boundary -/

/-- C2: the claim (and the intent documented in the repository's own test
table, which marks "exactly at timeout" as overdue) says `is_overdue` is
inclusive at `h = T`; the source compares with strict `>`, so a plant
watered exactly `TimeoutHours` hours ago is NOT overdue, while one hour
past the timeout it is. -/
theorem isOverdue_at_exact_timeout :
    PlantState.IsOverdue
      { id := 1, name := "Our Plant", lastWatered := some 0, timeoutHours := 24,
        wateredBy := "", createdAt := 0, updatedAt := 0 } 24 = false ∧
    (24 : ℚ) - 0 ≥ ((24 : Int) : ℚ) ∧
    PlantState.IsOverdue
      { id := 1, name := "Our Plant", lastWatered := some 0, timeoutHours := 24,
        wateredBy := "", createdAt := 0, updatedAt := 0 } 25 = true := by
  refine ⟨?_, by norm_num, ?_⟩ <;> norm_num [PlantState.IsOverdue]

/-! ### Plant service (internal/services/plant.go) over the in-memory store -/

/-- Embedding of `PlantService.createDefaultPlant` (internal/services/plant.go). -/
def createDefaultPlant (now : ℚ) : PlantState :=
  { id := 1, name := "Our Plant", lastWatered := none, timeoutHours := 24,
    wateredBy := "", createdAt := now, updatedAt := now }

/-- Embedding of `PlantService.GetPlant` (internal/services/plant.go): read-through with
lazy creation and persistence of the default plant. -/
def getPlant (st : MemoryStorage) (now : ℚ) : PlantState × MemoryStorage :=
  match st.plant with
  | some plant => (plant, st)
  | none => (createDefaultPlant now, { st with plant := some (createDefaultPlant now) })

/-- Embedding of `PlantService.WaterPlant` (internal/services/plant.go). -/
def waterPlant (st : MemoryStorage) (now : ℚ) (wateredBy : String) :
    Except String (PlantState × MemoryStorage) :=
  if wateredBy = "" then .error "watered_by field is required"
  else
    let pair := getPlant st now
    let plant2 := { pair.1 with
      lastWatered := some now
      wateredBy := wateredBy
      updatedAt := now }
    .ok (plant2, { pair.2 with plant := some plant2 })

/-- Embedding of `PlantService.UpdatePlantSettings` (internal/services/plant.go).  Go
mutates the plant record in place through the pointer shared with
`MemoryStorage`, so field updates made before an error return are still
visible in the store; the embedding threads that store state explicitly
(second component). -/
def updatePlantSettings (st : MemoryStorage) (now : ℚ) (name : String)
    (timeoutHours : Int) : Except String PlantState × MemoryStorage :=
  let pair := getPlant st now
  let p1 := if name ≠ "" then { pair.1 with name := name } else pair.1
  if timeoutHours ≠ 0 ∧ timeoutHours < 0 then
    (.error "timeout hours cannot be negative", { pair.2 with plant := some p1 })
  else
    let p2 := if timeoutHours ≠ 0 then { p1 with timeoutHours := timeoutHours } else p1
    let p3 := { p2 with updatedAt := now }
    match p3.Validate with
    | .error e => (.error ("invalid plant settings: " ++ e), { pair.2 with plant := some p3 })
    | .ok _ => (.ok p3, { pair.2 with plant := some p3 })

/-- Embedding of `PlantService.ResetPlant` (internal/services/plant.go). -/
def resetPlant (st : MemoryStorage) (now : ℚ) : PlantState × MemoryStorage :=
  let pair := getPlant st now
  let plant2 := { pair.1 with lastWatered := none, wateredBy := "", updatedAt := now }
  (plant2, { pair.2 with plant := some plant2 })

/-- Embedding of `services.PlantTimerResponse` (internal/services/plant.go). -/
structure PlantTimerResponse where
  lastWatered : Option ℚ
  timeSinceWatering : Option ℚ
  timeSinceWateringFormatted : String
  hoursSinceWatering : Option ℚ
  timeoutHours : Int
  nextWateringTime : Option ℚ
  timeUntilDue : Option ℚ
  isOverdue : Bool
deriving DecidableEq, Repr

/-- Embedding of `PlantService.GetPlantTimer` (internal/services/plant.go). -/
def getPlantTimer (st : MemoryStorage) (now : ℚ) : PlantTimerResponse × MemoryStorage :=
  let pair := getPlant st now
  ({ lastWatered := pair.1.lastWatered
     timeSinceWatering := pair.1.GetTimeSinceWatering now
     timeSinceWateringFormatted := pair.1.GetFormattedTimeSinceWatering now
     hoursSinceWatering := pair.1.GetHoursSinceWatering now
     timeoutHours := pair.1.timeoutHours
     nextWateringTime := pair.1.lastWatered.map (fun lw => lw + (pair.1.timeoutHours : ℚ))
     timeUntilDue := pair.1.GetTimeUntilDue now
     isOverdue := pair.1.IsOverdue now }, pair.2)

/-! ### Claim C4 : watering -/

/-- C4: `WaterPlant` fails with the actor-required error on an empty actor;
for a non-empty actor it stamps `last_watered = now` and
`watered_by = actor` and persists, so an immediately following `GetPlant`
returns the watered plant, which (with the default 24-hour timeout) has
health status `healthy`. -/
theorem waterPlant_waters (st : MemoryStorage) (now : ℚ) (actor : String)
    (hT : (getPlant st now).1.timeoutHours = 24) :
    (waterPlant st now "" = .error "watered_by field is required") ∧
    (actor ≠ "" →
      ∃ p2 st2, waterPlant st now actor = .ok (p2, st2) ∧
        p2.wateredBy = actor ∧ p2.lastWatered = some now ∧
        st2.plant = some p2 ∧
        (getPlant st2 now).1 = p2 ∧
        (getPlant st2 now).1.GetHealthStatus now = PlantHealthStatus.healthy) := by
  constructor
  · simp [waterPlant]
  · intro ha
    rcases hg : getPlant st now with ⟨p0, st0⟩
    rw [hg] at hT
    simp only at hT
    refine ⟨{ p0 with
        lastWatered := some now
        wateredBy := actor
        updatedAt := now },
      { st0 with
        plant := some { p0 with
          lastWatered := some now
          wateredBy := actor
          updatedAt := now } }, ?_, rfl, rfl, rfl, rfl, ?_⟩
    · simp [waterPlant, ha, hg]
    · norm_num [getPlant, PlantState.GetHealthStatus, hT]

/-- C4 witness: on empty storage at time 100, watering as
`user@example.com` succeeds and an immediate read-back is healthy with the
right actor, while an empty actor is rejected. -/
theorem waterPlant_waters_witness :
    (getPlant { plant := none, config := none } 100).1.timeoutHours = 24 ∧
    (waterPlant { plant := none, config := none } 100 "" =
      .error "watered_by field is required") ∧
    (∃ p2 st2,
      waterPlant { plant := none, config := none } 100 "user@example.com" = .ok (p2, st2) ∧
      p2.wateredBy = "user@example.com" ∧ p2.lastWatered = some 100 ∧
      st2.plant = some p2 ∧
      (getPlant st2 100).1 = p2 ∧
      (getPlant st2 100).1.GetHealthStatus 100 = PlantHealthStatus.healthy) := by
  have h := waterPlant_waters { plant := none, config := none } 100 "user@example.com"
    (by simp [getPlant, createDefaultPlant])
  exact ⟨by simp [getPlant, createDefaultPlant], h.1, h.2 (by simp)⟩

/-! ### Claim C5 : settings update sentinels -/

/-- C5: `UpdatePlantSettings("", 0)` treats the empty name and zero timeout
as "leave unchanged" sentinels, so the stored plant keeps its name and
timeout (only `updated_at` moves); `UpdatePlantSettings("", -1)` fails the
negative-timeout validation and leaves the stored plant exactly as it
was. -/
theorem updatePlantSettings_sentinels (st : MemoryStorage) (now : ℚ) (p : PlantState)
    (hp : st.plant = some p) :
    ((updatePlantSettings st now "" 0).2.plant = some { p with updatedAt := now }) ∧
    (updatePlantSettings st now "" (-1) = (.error "timeout hours cannot be negative", st)) := by
  obtain ⟨sp, sc⟩ := st
  simp only [MemoryStorage.plant] at hp
  subst hp
  constructor
  · cases hv : PlantState.Validate { p with updatedAt := now } <;>
      simp [updatePlantSettings, getPlant, hv]
  · simp [updatePlantSettings, getPlant]

/-- A concrete plant record used to instantiate general theorems. -/
def fernPlant : PlantState :=
  { id := 1
    name := "Fern"
    lastWatered := none
    timeoutHours := 48
    wateredBy := ""
    createdAt := 0
    updatedAt := 0 }

/-- C5 witness: a concrete stored plant keeps name "Fern" and timeout 48
under `("", 0)`, and `("", -1)` errors leaving the store untouched. -/
theorem updatePlantSettings_sentinels_witness :
    (updatePlantSettings { plant := some fernPlant, config := none } 5 "" 0).2.plant =
      some { fernPlant with updatedAt := 5 } ∧
    updatePlantSettings { plant := some fernPlant, config := none } 5 "" (-1) =
      (.error "timeout hours cannot be negative",
        { plant := some fernPlant, config := none }) :=
  updatePlantSettings_sentinels { plant := some fernPlant, config := none } 5 fernPlant rfl

/-! ### Claim C9 : reset idempotence -/

/-- C9: `ResetPlant` is idempotent with respect to the watering state:
one reset leaves `last_watered` absent and `watered_by` empty, and a
second reset (at any later instant) yields exactly the same watering
state. -/
theorem resetPlant_idempotent (st : MemoryStorage) (now now2 : ℚ) :
    (resetPlant st now).1.lastWatered = none ∧
    (resetPlant st now).1.wateredBy = "" ∧
    (resetPlant (resetPlant st now).2 now2).1.lastWatered =
      (resetPlant st now).1.lastWatered ∧
    (resetPlant (resetPlant st now).2 now2).1.wateredBy =
      (resetPlant st now).1.wateredBy := by
  obtain ⟨sp, sc⟩ := st
  cases sp <;> simp [resetPlant, getPlant]

/-! ### Auth service (internal/auth/auth.go) -/

/-- The static fallback lists of `AuthService` (internal/auth/auth.go): the
`allowedEmails` / `adminEmails` maps parsed from the environment (or the
demo defaults), as membership predicates. -/
structure AuthServiceLists where
  allowedEmails : String → Bool
  adminEmails : String → Bool

/-- Embedding of `AuthService.IsUserAllowed` (internal/auth/auth.go).  `configRes` is
the outcome of `storage.GetAdminConfig()`: `.error` for a failed read,
`.ok none` for "no config stored", `.ok (some c)` for a stored config; the
code treats the first two alike (fall back to the static map). -/
def IsUserAllowed (a : AuthServiceLists) (configRes : Except String (Option AdminConfig))
    (email : String) : Bool :=
  if a.allowedEmails email then true
  else
    match configRes with
    | .ok (some config) => config.allowedEmails.contains email
    | _ => a.allowedEmails email

/-- Embedding of `AuthService.IsUserAdmin` (internal/auth/auth.go). -/
def IsUserAdmin (a : AuthServiceLists) (configRes : Except String (Option AdminConfig))
    (email : String) : Bool :=
  if a.adminEmails email then true
  else
    match configRes with
    | .ok (some config) => config.adminEmails.contains email
    | _ => a.adminEmails email

/-! ### Claim C3 : static fallback vs dynamic allowlist -/

/-- A stored admin config whose dynamic allowlist does not contain the
statically allowed email. -/
def cexConfig : AdminConfig :=
  { timeoutHours := 24
    allowedEmails := ["user@x.com"]
    adminEmails := []
    lastModified := 0
    modifiedBy := "" }

/-- C3 counterexample: `admin@example.com` is in the static fallback set,
the storage read succeeds with a config that does NOT list it, yet
`IsUserAllowed` returns true - the dynamic verdict (false) does not win,
because the static check short-circuits before storage is consulted. -/
theorem isUserAllowed_static_wins_cex :
    IsUserAllowed
      { allowedEmails := fun e => e == "admin@example.com"
        adminEmails := fun e => e == "admin@example.com" }
      (.ok (some cexConfig)) "admin@example.com" = true ∧
    cexConfig.allowedEmails.contains "admin@example.com" = false := by
  constructor <;> rfl

/-- C3 (amended): a static-set hit short-circuits to true regardless of
the dynamic config; only on a static miss is the stored config consulted,
in which case a successfully read config's list decides, while a failed
read or a missing config falls back to static membership.  Equivalently,
the user is allowed (resp. admin) iff the email is in the static set, or
the storage read succeeded with a config whose corresponding list contains
the email. -/
theorem isUserAllowed_characterization (a : AuthServiceLists)
    (configRes : Except String (Option AdminConfig)) (email : String) :
    (IsUserAllowed a configRes email =
      (a.allowedEmails email ||
        match configRes with
        | .ok (some config) => config.allowedEmails.contains email
        | _ => false)) ∧
    (IsUserAdmin a configRes email =
      (a.adminEmails email ||
        match configRes with
        | .ok (some config) => config.adminEmails.contains email
        | _ => false)) := by
  constructor
  · rcases configRes with e | oc
    · cases h : a.allowedEmails email <;> simp [IsUserAllowed, h]
    · cases oc <;> cases h : a.allowedEmails email <;> simp [IsUserAllowed, h]
  · rcases configRes with e | oc
    · cases h : a.adminEmails email <;> simp [IsUserAdmin, h]
    · cases oc <;> cases h : a.adminEmails email <;> simp [IsUserAdmin, h]

/-! ### Claim C7 : formatted elapsed time -/

/-- Truncation toward zero agrees with the floor on non-negative
rationals. -/
theorem ratTruncInt_eq_floor (q : ℚ) (hq : 0 ≤ q) : ratTruncInt q = ⌊q⌋ := by
  have hnum : 0 ≤ q.num := Rat.num_nonneg.mpr hq
  have hden : (0 : Int) ≤ (q.den : Int) := Int.ofNat_nonneg _
  rw [Rat.floor_def, ratTruncInt, Int.tdiv_eq_ediv hnum hden]

/-- Evaluation helper: truncation of the rational one. -/
theorem ratTruncInt_one : ratTruncInt 1 = 1 := by
  have h : ratTruncInt 1 = ⌊(1 : ℚ)⌋ := ratTruncInt_eq_floor 1 (by norm_num)
  simp [h]

/-- Evaluation helper: truncation of the rational twenty-four. -/
theorem ratTruncInt_twentyFour : ratTruncInt 24 = 24 := by
  have h : ratTruncInt 24 = ⌊(24 : ℚ)⌋ := ratTruncInt_eq_floor 24 (by norm_num)
  simp [h]

/-- C7: `GetFormattedTimeSinceWatering` returns "Never watered" without a
`last_watered`; at exactly one minute, one hour and twenty-four hours of
elapsed time it returns "1 minute ago", "1 hour ago" and "1 day ago"; and
in general it formats truncated minutes below one hour, truncated hours
below twenty-four hours, and truncated days otherwise, with the singular
form exactly when the truncated count is one. -/
theorem getFormattedTimeSinceWatering_spec (p : PlantState) (now lw : ℚ)
    (hlw : p.lastWatered = some lw) (h0 : 0 ≤ now - lw) :
    (∀ q : PlantState, q.lastWatered = none →
      q.GetFormattedTimeSinceWatering now = "Never watered") ∧
    (now - lw = 1 / 60 → p.GetFormattedTimeSinceWatering now = "1 minute ago") ∧
    (now - lw = 1 → p.GetFormattedTimeSinceWatering now = "1 hour ago") ∧
    (now - lw = 24 → p.GetFormattedTimeSinceWatering now = "1 day ago") ∧
    (now - lw < 1 → p.GetFormattedTimeSinceWatering now =
      (if ratTruncInt ((now - lw) * 60) = 1 then "1 minute ago"
       else s!"{ratTruncInt ((now - lw) * 60)} minutes ago")) ∧
    (1 ≤ now - lw → now - lw < 24 → p.GetFormattedTimeSinceWatering now =
      (if ratTruncInt (now - lw) = 1 then "1 hour ago"
       else s!"{ratTruncInt (now - lw)} hours ago")) ∧
    (24 ≤ now - lw → p.GetFormattedTimeSinceWatering now =
      (if ratTruncInt ((now - lw) / 24) = 1 then "1 day ago"
       else s!"{ratTruncInt ((now - lw) / 24)} days ago")) := by
  refine ⟨?_, ?_, ?_, ?_, ?_, ?_, ?_⟩
  · intro q hq
    simp [PlantState.GetFormattedTimeSinceWatering, hq]
  · intro h
    have h60 : (now - lw) * 60 = 1 := by rw [h]; norm_num
    simp only [PlantState.GetFormattedTimeSinceWatering, hlw, h, h60, ratTruncInt_one]
    norm_num
    intro hcon
    exact absurd ratTruncInt_one hcon
  · intro h
    simp only [PlantState.GetFormattedTimeSinceWatering, hlw, h, ratTruncInt_one]
    norm_num
  · intro h
    have h24 : (now - lw) / 24 = 1 := by rw [h]; norm_num
    simp only [PlantState.GetFormattedTimeSinceWatering, hlw, h, h24, ratTruncInt_one,
      ratTruncInt_twentyFour]
    norm_num
    intro hcon
    exact absurd ratTruncInt_one hcon
  · intro h
    simp only [PlantState.GetFormattedTimeSinceWatering, hlw, if_pos h]
  · intro h1 h2
    have hn1 : ¬ now - lw < 1 := not_lt.mpr h1
    have hlt24 : ratTruncInt (now - lw) < 24 := by
      rw [ratTruncInt_eq_floor _ h0]
      exact Int.floor_lt.mpr (by exact_mod_cast h2)
    simp only [PlantState.GetFormattedTimeSinceWatering, hlw, if_neg hn1]
    by_cases he : ratTruncInt (now - lw) = 1
    · simp [he]
    · simp [he, if_pos hlt24]
  · intro h24
    have hn1 : ¬ now - lw < 1 := by
      intro hcon
      linarith
    have hge : (24 : Int) ≤ ratTruncInt (now - lw) := by
      rw [ratTruncInt_eq_floor _ h0]
      exact Int.le_floor.mpr (by exact_mod_cast h24)
    have hne1 : ¬ ratTruncInt (now - lw) = 1 := by omega
    have hnlt : ¬ ratTruncInt (now - lw) < 24 := by omega
    simp only [PlantState.GetFormattedTimeSinceWatering, hlw, if_neg hn1, if_neg hne1,
      if_neg hnlt]

/-- C7 witness: a plant watered exactly one minute before `now` formats
as "1 minute ago". -/
theorem getFormattedTimeSinceWatering_witness :
    PlantState.GetFormattedTimeSinceWatering
      { id := 1, name := "Our Plant", lastWatered := some 0, timeoutHours := 24,
        wateredBy := "", createdAt := 0, updatedAt := 0 } (1 / 60) = "1 minute ago" := by
  have h := getFormattedTimeSinceWatering_spec
    { id := 1, name := "Our Plant", lastWatered := some 0, timeoutHours := 24,
      wateredBy := "", createdAt := 0, updatedAt := 0 } (1 / 60) 0 rfl (by norm_num)
  have h2 := h.2.1 (by norm_num)
  exact h2

/-! ### Admin handlers (internal/handlers/admin.go) -/

/-- The environment-derived email lists: the results of
`getEmailsFromEnv("ALLOWED_EMAILS", [])` and
`getEmailsFromEnv("ADMIN_EMAILS", [])` (internal/handlers/admin.go) -
already split on commas, trimmed, and purged of empty entries. -/
structure EnvLists where
  allowedEnv : List String
  adminEnv : List String

/-- The default email lists built by `GetConfigHandler` and
`UpdateTimeoutHandler` when no config exists: demo defaults when both env
lists are empty, then admin emails not already present are appended to the
allowed list. -/
def defaultEmailLists (env : EnvLists) : List String × List String :=
  let base :=
    if env.allowedEnv.isEmpty && env.adminEnv.isEmpty then
      (["demo@example.com", "user1@example.com", "user2@example.com", "test@example.com"],
        ["admin@example.com"])
    else (env.allowedEnv, env.adminEnv)
  (base.1 ++ base.2.filter (fun e => !(base.1.contains e)), base.2)

/-- Embedding of `AdminHandler.UpdateTimeoutHandler` (internal/handlers/admin.go), after
a successful JSON decode of the `timeoutHours` field; returns the HTTP
status and the resulting store. -/
def updateTimeoutHandler (st : MemoryStorage) (env : EnvLists) (timeoutHours : Int) :
    Nat × MemoryStorage :=
  if timeoutHours < 1 || timeoutHours > 168 then (400, st)
  else
    let config :=
      match st.config with
      | none =>
        { timeoutHours := timeoutHours
          allowedEmails := (defaultEmailLists env).1
          adminEmails := (defaultEmailLists env).2
          lastModified := 0
          modifiedBy := "" }
      | some c => { c with timeoutHours := timeoutHours }
    let st1 := { st with config := some config }
    match st1.plant with
    | none => (200, st1)
    | some p => (200, { st1 with plant := some { p with timeoutHours := timeoutHours } })

/-- Embedding of `AdminHandler.GetConfigHandler` (internal/handlers/admin.go): returns
the status, the encoded config, and the store (a default config is created
and persisted when none exists). -/
def getConfigHandler (st : MemoryStorage) (env : EnvLists) :
    (Nat × AdminConfig) × MemoryStorage :=
  match st.config with
  | some config => ((200, config), st)
  | none =>
    let config : AdminConfig :=
      { timeoutHours := 24
        allowedEmails := (defaultEmailLists env).1
        adminEmails := (defaultEmailLists env).2
        lastModified := 0
        modifiedBy := "" }
    ((200, config), { st with config := some config })

/-- Go `strings.ToLower` (ASCII range, which is all the email handling
relies on), acting on the string's character data. -/
def toLowerGo (s : String) : String :=
  ⟨s.data.map Char.toLower⟩

/-- Go `strings.TrimSpace`: drop leading and trailing whitespace. -/
def trimSpaceGo (s : String) : String :=
  ⟨((s.data.dropWhile Char.isWhitespace).reverse.dropWhile Char.isWhitespace).reverse⟩

/-- The normalization `strings.TrimSpace(strings.ToLower(email))` applied
by `AddUserHandler` and `RemoveUserHandler` (internal/handlers/admin.go). -/
def normalizeEmail (raw : String) : String :=
  trimSpaceGo (toLowerGo raw)

/-- Go `strings.Contains(s, c)` for a single-character needle: membership
of the character in the string. -/
def containsCharGo (s : String) (c : Char) : Bool :=
  s.data.contains c

/-- Embedding of `AdminHandler.AddUserHandler` (internal/handlers/admin.go), after a
successful JSON decode of the `email` field; returns the HTTP status and
the resulting store. -/
def addUserHandler (st : MemoryStorage) (rawEmail : String) : Nat × MemoryStorage :=
  if normalizeEmail rawEmail = "" then (400, st)
  else if !(containsCharGo (normalizeEmail rawEmail) '@') ||
      !(containsCharGo (normalizeEmail rawEmail) '.') then (400, st)
  else
    let config :=
      match st.config with
      | some c => c
      | none =>
        { timeoutHours := 24
          allowedEmails := []
          adminEmails := ["admin@example.com"]
          lastModified := 0
          modifiedBy := "" }
    if config.allowedEmails.contains (normalizeEmail rawEmail) then (409, st)
    else
      (201, { st with config := some { config with
        allowedEmails := config.allowedEmails ++ [normalizeEmail rawEmail] } })

/-- Embedding of `AdminHandler.RemoveUserHandler` (internal/handlers/admin.go), with the
raw `email` URL parameter; returns the HTTP status and the resulting
store. -/
def removeUserHandler (st : MemoryStorage) (rawEmail : String) : Nat × MemoryStorage :=
  if rawEmail = "" then (400, st)
  else
    match st.config with
    | none => (404, st)
    | some config =>
      if !(config.allowedEmails.contains (normalizeEmail rawEmail)) then (404, st)
      else
        (200, { st with config := some { config with
          allowedEmails := config.allowedEmails.filter
            (fun e => e != normalizeEmail rawEmail) } })

/-! ### Claim C6 : admin timeout update -/

/-- C6: the admin timeout update rejects `hours < 1` or `hours > 168` with
a 400 and an unchanged store; for `hours` in `[1, 168]` (and a stored
plant) it returns 200, writes `hours` into the AdminConfig and into the
plant, so that a following plant-timer read and admin-config read both
report the new timeout. -/
theorem updateTimeout_validates_and_syncs (st : MemoryStorage) (env : EnvLists)
    (hours : Int) (now : ℚ) (p : PlantState) (hp : st.plant = some p) :
    ((hours < 1 ∨ hours > 168) → updateTimeoutHandler st env hours = (400, st)) ∧
    (1 ≤ hours → hours ≤ 168 →
      (updateTimeoutHandler st env hours).1 = 200 ∧
      ((updateTimeoutHandler st env hours).2.config.map AdminConfig.timeoutHours) =
        some hours ∧
      (updateTimeoutHandler st env hours).2.plant = some { p with timeoutHours := hours } ∧
      (getPlantTimer (updateTimeoutHandler st env hours).2 now).1.timeoutHours = hours ∧
      (getConfigHandler (updateTimeoutHandler st env hours).2 env).1.1 = 200 ∧
      (getConfigHandler (updateTimeoutHandler st env hours).2 env).1.2.timeoutHours =
        hours) := by
  constructor
  · rintro (h | h) <;> simp [updateTimeoutHandler, h]
  · intro h1 h2
    have hlt : ¬ hours < 1 := not_lt.mpr h1
    have hgt : ¬ (168 : Int) < hours := not_lt.mpr h2
    cases hcfg : st.config <;>
      simp [updateTimeoutHandler, getPlantTimer, getPlant, getConfigHandler, hp, hcfg,
        hlt, hgt]

/-- C6 witness: on a store holding the Fern plant and no config, setting
the timeout to 72 succeeds and both read-backs report 72, while 0 and 169
are rejected without touching the store. -/
theorem updateTimeout_validates_and_syncs_witness :
    updateTimeoutHandler { plant := some fernPlant, config := none }
      { allowedEnv := [], adminEnv := [] } 0 =
      (400, { plant := some fernPlant, config := none }) ∧
    updateTimeoutHandler { plant := some fernPlant, config := none }
      { allowedEnv := [], adminEnv := [] } 169 =
      (400, { plant := some fernPlant, config := none }) ∧
    (updateTimeoutHandler { plant := some fernPlant, config := none }
      { allowedEnv := [], adminEnv := [] } 72).1 = 200 ∧
    ((updateTimeoutHandler { plant := some fernPlant, config := none }
      { allowedEnv := [], adminEnv := [] } 72).2.config.map AdminConfig.timeoutHours) =
      some 72 ∧
    (updateTimeoutHandler { plant := some fernPlant, config := none }
      { allowedEnv := [], adminEnv := [] } 72).2.plant =
      some { fernPlant with timeoutHours := 72 } ∧
    (getPlantTimer (updateTimeoutHandler { plant := some fernPlant, config := none }
      { allowedEnv := [], adminEnv := [] } 72).2 0).1.timeoutHours = 72 ∧
    (getConfigHandler (updateTimeoutHandler { plant := some fernPlant, config := none }
      { allowedEnv := [], adminEnv := [] } 72).2
      { allowedEnv := [], adminEnv := [] }).1.2.timeoutHours = 72 := by
  have h := updateTimeout_validates_and_syncs { plant := some fernPlant, config := none }
    { allowedEnv := [], adminEnv := [] } 72 0 fernPlant rfl
  have h400a := (updateTimeout_validates_and_syncs { plant := some fernPlant, config := none }
    { allowedEnv := [], adminEnv := [] } 0 0 fernPlant rfl).1 (Or.inl (by decide))
  have h400b := (updateTimeout_validates_and_syncs { plant := some fernPlant, config := none }
    { allowedEnv := [], adminEnv := [] } 169 0 fernPlant rfl).1 (Or.inr (by decide))
  have hok := h.2 (by decide) (by decide)
  exact ⟨h400a, h400b, hok.1, hok.2.1, hok.2.2.1, hok.2.2.2.1, hok.2.2.2.2.2⟩

/-! ### Claim C8 : duplicate user add -/

/-- C8: for a raw email whose normalized form is non-empty, passes the
shape check (contains "@" and "."), and is not yet in the stored
allowlist, `AddUserHandler` appends it and returns 201; repeating the same
request on the resulting store returns 409 and leaves the store - and so
the allowlist - unchanged. -/
theorem addUser_then_conflict (st : MemoryStorage) (raw : String) (c : AdminConfig)
    (hc : st.config = some c)
    (hne : normalizeEmail raw ≠ "")
    (hat : containsCharGo (normalizeEmail raw) '@' = true)
    (hdot : containsCharGo (normalizeEmail raw) '.' = true)
    (hnew : c.allowedEmails.contains (normalizeEmail raw) = false) :
    addUserHandler st raw =
      (201, { st with config := some { c with
        allowedEmails := c.allowedEmails ++ [normalizeEmail raw] } }) ∧
    addUserHandler
      { st with config := some { c with
        allowedEmails := c.allowedEmails ++ [normalizeEmail raw] } } raw =
      (409, { st with config := some { c with
        allowedEmails := c.allowedEmails ++ [normalizeEmail raw] } }) := by
  have hmem : normalizeEmail raw ∉ c.allowedEmails := by simpa using hnew
  constructor
  · simp [addUserHandler, hc, hne, hat, hdot, hmem]
  · simp [addUserHandler, hne, hat, hdot]

/-- An admin config with an empty allowlist, used to instantiate the
admin-handler theorems. -/
def emptyListConfig : AdminConfig :=
  { timeoutHours := 24
    allowedEmails := []
    adminEmails := ["admin@example.com"]
    lastModified := 0
    modifiedBy := "" }

/-- C8 witness: adding `dup@x.com` to an empty allowlist returns 201 and
stores it; adding it again returns 409 with the store unchanged. -/
theorem addUser_then_conflict_witness :
    addUserHandler { plant := none, config := some emptyListConfig } "dup@x.com" =
      (201, { plant := none, config := some { emptyListConfig with
        allowedEmails := [normalizeEmail "dup@x.com"] } }) ∧
    addUserHandler { plant := none, config := some { emptyListConfig with
        allowedEmails := [normalizeEmail "dup@x.com"] } } "dup@x.com" =
      (409, { plant := none, config := some { emptyListConfig with
        allowedEmails := [normalizeEmail "dup@x.com"] } }) :=
  addUser_then_conflict { plant := none, config := some emptyListConfig } "dup@x.com"
    emptyListConfig rfl (by decide) (by decide) (by decide) (by decide)

/-! ### Claim C10 : normalization on write, exact match on check -/

/-- C10: `AddUserHandler` and `RemoveUserHandler` normalize the presented
email to its lowercased, whitespace-trimmed form before any comparison or
storage - a successful add stores `TrimSpace(ToLower(e))`, and remove
matches (and deletes) under the same normalization - whereas
`IsUserAllowed` compares the dynamic allowlist entries to the presented
email exactly and case-sensitively. -/
theorem email_normalization_asymmetry (st : MemoryStorage) (raw email : String)
    (c : AdminConfig) (a : AuthServiceLists) (hc : st.config = some c) :
    ((addUserHandler st raw).1 = 201 →
      (addUserHandler st raw).2.config =
        some { c with allowedEmails := c.allowedEmails ++ [normalizeEmail raw] }) ∧
    (raw ≠ "" → c.allowedEmails.contains (normalizeEmail raw) = true →
      removeUserHandler st raw =
        (200, { st with config := some { c with
          allowedEmails := c.allowedEmails.filter
            (fun e => e != normalizeEmail raw) } })) ∧
    (raw ≠ "" → c.allowedEmails.contains (normalizeEmail raw) = false →
      removeUserHandler st raw = (404, st)) ∧
    (a.allowedEmails email = false →
      IsUserAllowed a (.ok (some c)) email = c.allowedEmails.contains email) := by
  refine ⟨?_, ?_, ?_, ?_⟩
  · intro h
    by_cases h1 : normalizeEmail raw = ""
    · simp [addUserHandler, h1] at h
    · by_cases h2 : containsCharGo (normalizeEmail raw) '@' = true
      · by_cases h3 : containsCharGo (normalizeEmail raw) '.' = true
        · by_cases h4 : normalizeEmail raw ∈ c.allowedEmails
          · simp [addUserHandler, hc, h1, h2, h3, h4] at h
          · simp [addUserHandler, hc, h1, h2, h3, h4]
        · simp only [Bool.not_eq_true] at h3
          simp [addUserHandler, h1, h2, h3] at h
      · simp only [Bool.not_eq_true] at h2
        simp [addUserHandler, h1, h2] at h
  · intro h1 h2
    have hmem : normalizeEmail raw ∈ c.allowedEmails := by simpa using h2
    simp [removeUserHandler, hc, h1, hmem]
  · intro h1 h2
    have hmem : normalizeEmail raw ∉ c.allowedEmails := by simpa using h2
    simp [removeUserHandler, hc, h1, hmem]
  · intro h
    simp [IsUserAllowed, h]

/-- C10 witness: adding raw `" DuP@X.com "` stores the normalized
`dup@x.com` (not the raw string); removing raw `"DUP@x.COM"` matches the
stored normalized entry; and the allow-check on a config storing
`dup@x.com` accepts exactly `dup@x.com` and rejects the differently cased
`DuP@X.com`. -/
theorem email_normalization_asymmetry_witness :
    (addUserHandler { plant := none, config := some emptyListConfig } " DuP@X.com ").1 =
      201 ∧
    (addUserHandler { plant := none, config := some emptyListConfig }
      " DuP@X.com ").2.config =
      some { emptyListConfig with allowedEmails := ["dup@x.com"] } ∧
    removeUserHandler { plant := none, config := some { emptyListConfig with
        allowedEmails := ["dup@x.com"] } } "DUP@x.COM" =
      (200, { plant := none, config := some { emptyListConfig with
        allowedEmails := [] } }) ∧
    IsUserAllowed { allowedEmails := fun _ => false, adminEmails := fun _ => false }
      (.ok (some { emptyListConfig with allowedEmails := ["dup@x.com"] }))
      "DuP@X.com" = false ∧
    IsUserAllowed { allowedEmails := fun _ => false, adminEmails := fun _ => false }
      (.ok (some { emptyListConfig with allowedEmails := ["dup@x.com"] }))
      "dup@x.com" = true := by
  have h := email_normalization_asymmetry
    { plant := none, config := some emptyListConfig } " DuP@X.com " "DuP@X.com"
    emptyListConfig { allowedEmails := fun _ => false, adminEmails := fun _ => false } rfl
  have h2 := email_normalization_asymmetry
    { plant := none, config := some { emptyListConfig with allowedEmails := ["dup@x.com"] } }
    "DUP@x.COM" "dup@x.com"
    { emptyListConfig with allowedEmails := ["dup@x.com"] }
    { allowedEmails := fun _ => false, adminEmails := fun _ => false } rfl
  refine ⟨by decide, ?_, ?_, ?_, ?_⟩
  · have := h.1 (by decide)
    simpa [normalizeEmail, toLowerGo, trimSpaceGo] using this
  · have := h2.2.1 (by decide) (by decide)
    simpa [normalizeEmail, toLowerGo, trimSpaceGo] using this
  · have := h.2.2.2 rfl
    simpa using this
  · have := h2.2.2.2 rfl
    simpa using this

end Watered
